import Mathlib

/-!
Verification of the argon-ui console core against its specification.

The development shallowly embeds the two pieces of genuine logic in the
repository:

* the ANSI escape-sequence parser `parseAnsi` from
  `src/src/components/AnsiParser.tsx` (and the themed variant of the same
  parser found in `src/unnamed/part_001`), and
* the console-session logic of `src/src/pages/[server]/Console.tsx`:
  the `ws.onmessage` dispatcher, `sendCommand`, `handlePowerAction` with the
  power buttons' disabled predicates, and the `ws.onclose` reconnection
  behaviour.

Pure functions become Lean functions; the imperative scanning loop of the
parser becomes a structurally recursive scanner over the character list with
an explicit mode (accumulating text vs. accumulating an escape-code body),
and the React state updates become explicit state-passing functions.
-/

namespace ArgonConsole

/-- The escape character `\u001b` that introduces an ANSI sequence
(`AnsiParser.tsx` line 47 checks `input[position] === '\u001b'`). -/
def escChar : Char := Char.ofNat 27

/-- The `ANSI_COLORS` table of `AnsiParser.tsx` (lines 3-21): palette slots
0-7 are the base colors, 8-15 the bright variants.  Indices outside 0..15 are
never produced by the recognized code ranges. -/
def ansiColorsSrc : Nat → String
  | 0 => "#000000"
  | 1 => "#d16969"
  | 2 => "#b5cea8"
  | 3 => "#d7ba7d"
  | 4 => "#569cd6"
  | 5 => "#c586c0"
  | 6 => "#9cdcfe"
  | 7 => "#d4d4d4"
  | 8 => "#808080"
  | 9 => "#d16969"
  | 10 => "#b5cea8"
  | 11 => "#d7ba7d"
  | 12 => "#569cd6"
  | 13 => "#c586c0"
  | 14 => "#9cdcfe"
  | 15 => "#ffffff"
  | _ => ""

/-- Foreground color values of the themed parser variant
(`src/unnamed/part_001` line 147: a CSS variable reference per palette slot). -/
def ansiVarFg (n : Nat) : String := "var(--ansi-" ++ toString n ++ ")"

/-- Background color values of the themed parser variant
(`src/unnamed/part_001` line 153). -/
def ansiVarBg (n : Nat) : String := "var(--ansi-bg-" ++ toString n ++ ")"

/-- The `SpanStyle` record of `AnsiParser.tsx` (lines 27-33): every field is
optional; an absent field is the CSS default. -/
structure SpanStyle where
  fontWeight : Option String := none
  fontStyle : Option String := none
  textDecoration : Option String := none
  color : Option String := none
  backgroundColor : Option String := none
deriving DecidableEq, Repr

/-- The default style `{}` that a fresh span and a reset code produce. -/
def SpanStyle.empty : SpanStyle := {}

/-- A parsed segment: a run of text together with the style in force when the
run was flushed (`AnsiParser.tsx` lines 35-38). -/
structure Span where
  text : List Char
  style : SpanStyle
deriving DecidableEq, Repr

/-- Splitting a code body on semicolons, as `code.split(';')` does in the
source (`AnsiParser.tsx` line 65).  Like the JavaScript `split`, an empty
body yields the singleton list containing the empty piece. -/
def splitSemi : List Char → List (List Char)
  | [] => [[]]
  | c :: cs =>
    if c = ';' then [] :: splitSemi cs
    else
      match splitSemi cs with
      | [] => [[c]]
      | p :: ps => (c :: p) :: ps

/-- Value of a digit string. -/
def digitsVal (s : List Char) : Nat :=
  s.foldl (fun acc c => acc * 10 + (c.toNat - 48)) 0

/-- Model of the JavaScript `Number(str)` conversion applied to each piece of
the split code body (`AnsiParser.tsx` line 65): the empty string converts to
0, a string of decimal digits converts to its value, and any other piece is
modelled as NaN (`none`), which every comparison in the code loop rejects,
exactly as NaN fails the source's equality and range tests. -/
def jsNumber (s : List Char) : Option Int :=
  if s = [] then some 0
  else if s.all Char.isDigit then some (Int.ofNat (digitsVal s)) else none

/-- The integer code list obtained from a raw escape-code body, as in
`const codes = code.split(';').map(Number)` (`AnsiParser.tsx` line 65). -/
def parseCodes (body : List Char) : List (Option Int) :=
  (splitSemi body).map jsNumber

/-- One iteration of the code-processing loop of `AnsiParser.tsx`
(lines 66-94), parameterized by the foreground and background palettes so
that the original parser and the themed variant are instances of the same
embedding.  A `none` code is NaN: no branch matches and the style is kept. -/
def applyCode (fg bg : Nat → String) (st : SpanStyle) (c : Option Int) : SpanStyle :=
  match c with
  | none => st
  | some c =>
    if c = 0 then SpanStyle.empty
    else if c = 1 then { st with fontWeight := some ("bold") }
    else if c = 3 then { st with fontStyle := some ("italic") }
    else if c = 4 then { st with textDecoration := some ("underline") }
    else if 30 ≤ c ∧ c ≤ 37 then { st with color := some (fg (c - 30).toNat) }
    else if 90 ≤ c ∧ c ≤ 97 then { st with color := some (fg (c - 82).toNat) }
    else if 40 ≤ c ∧ c ≤ 47 then { st with backgroundColor := some (bg (c - 40).toNat) }
    else if 100 ≤ c ∧ c ≤ 107 then { st with backgroundColor := some (bg (c - 92).toNat) }
    else st

/-- The full code-processing loop: codes are applied in order to the carried
style state. -/
def applyCodes (fg bg : Nat → String) (st : SpanStyle) (cs : List (Option Int)) : SpanStyle :=
  cs.foldl (applyCode fg bg) st

/-- The scanner mode: either accumulating ordinary text (the outer `while`
loop of `parseAnsi` with its `currentSpan.text` accumulator) or accumulating
the body of an escape code (the inner `while` collecting characters until
the terminator character). -/
inductive ScanMode
  | text (cur : List Char)
  | code (body : List Char)
deriving DecidableEq, Repr

/-- The scanning loop of `parseAnsi` (`AnsiParser.tsx` lines 46-99 plus the
final flush of lines 102-104), written as a structurally recursive function
over the remaining input.  In text mode, the two-character introducer flushes
any accumulated text (keeping the carried style) and switches to code mode; a
final character, or any character not starting the introducer, is appended to
the current text.  In code mode the terminator character applies the parsed
codes to the carried style and returns to text mode; running out of input
while in code mode ends the parse with no further segment, exactly as the
source's inner loop runs off the end of the string. -/
def scan (fg bg : Nat → String) : List Char → ScanMode → SpanStyle → List Span
  | [], .text cur, st => if cur = [] then [] else [⟨cur, st⟩]
  | [], .code _, _ => []
  | c :: cs, .code body, st =>
    if c = 'm' then
      scan fg bg cs (.text []) (applyCodes fg bg st (parseCodes body))
    else
      scan fg bg cs (.code (body ++ [c])) st
  | [c], .text cur, st => scan fg bg [] (.text (cur ++ [c])) st
  | c1 :: c2 :: cs, .text cur, st =>
    if c1 = escChar ∧ c2 = '[' then
      (if cur = [] then [] else [⟨cur, st⟩]) ++ scan fg bg cs (.code []) st
    else
      scan fg bg (c2 :: cs) (.text (cur ++ [c1])) st

/-- The parser of `src/src/components/AnsiParser.tsx`: both color ranges read
the single `ANSI_COLORS` table. -/
def parseAnsi (input : List Char) : List Span :=
  scan ansiColorsSrc ansiColorsSrc input (.text []) SpanStyle.empty

/-- The themed parser variant of `src/unnamed/part_001`: identical control
flow, with CSS variable references as color values. -/
def parseAnsiThemed (input : List Char) : List Span :=
  scan ansiVarFg ansiVarBg input (.text []) SpanStyle.empty

/-- Concatenation of the text fields of a segment list. -/
def textConcat (spans : List Span) : List Char :=
  (spans.map Span.text).flatten

/-- Grammar of well-formed console lines, used to state the specification's
round-trip property: a line is a sequence of ordinary characters and
well-formed escape sequences (introducer, code body, terminator). -/
inductive Chunk
  | ch (c : Char)
  | escSeq (body : List Char)
deriving DecidableEq, Repr

/-- Rendering one chunk back to raw characters. -/
def renderChunk : Chunk → List Char
  | .ch c => [c]
  | .escSeq body => escChar :: '[' :: (body ++ ['m'])

/-- Rendering a chunk list to the raw input line. -/
def render : List Chunk → List Char
  | [] => []
  | k :: ks => renderChunk k ++ render ks

/-- The line with all escape sequences removed: just its ordinary characters. -/
def plain : List Chunk → List Char
  | [] => []
  | .ch c :: ks => c :: plain ks
  | .escSeq _ :: ks => plain ks

/-- Well-formedness of a chunk list: ordinary characters are not the escape
character (so they cannot begin an introducer), and an escape-code body does
not contain the terminator character (so the sequence is terminated by the
terminator written after it). -/
def goodChunks : List Chunk → Bool
  | [] => true
  | .ch c :: ks => !(c == escChar) && goodChunks ks
  | .escSeq body :: ks => !(body.contains 'm') && goodChunks ks

/-- Agreement of two styles on everything except the concrete color values:
equal bold, italic and underline flags. -/
def StyleSim (s t : SpanStyle) : Prop :=
  s.fontWeight = t.fontWeight ∧ s.fontStyle = t.fontStyle ∧
    s.textDecoration = t.textDecoration

/-- Agreement of two segments up to concrete color values: identical text
and agreeing style flags. -/
def SpanSim (a b : Span) : Prop :=
  a.text = b.text ∧ StyleSim a.style b.style

/-- The memory sub-object of the wire `stats` payload and of the local
`liveStats` state (`Console.tsx` lines 52-56 and 85): the fields keep the
source's shape. -/
structure MemoryStats where
  used : Int
  limit : Int
  percent : Int
deriving DecidableEq, Repr

/-- The network sub-object of the wire `stats` payload (`Console.tsx`
lines 57-60), with the wire field names. -/
structure WireNetwork where
  rx_bytes : Int
  tx_bytes : Int
deriving DecidableEq, Repr

/-- The network part of the local `liveStats` state (`Console.tsx` line 86),
with the local field names. -/
structure NetworkStats where
  rxBytes : Int
  txBytes : Int
deriving DecidableEq, Repr

/-- The `liveStats` state slice (`Console.tsx` lines 83-91). -/
structure LiveStats where
  cpuPercent : Int
  memory : MemoryStats
  network : NetworkStats
deriving DecidableEq, Repr

/-- The `data` payload of a decoded wire envelope (`Console.tsx`
lines 44-62): every field is optional, `none` modelling an absent
(`undefined`) JSON field. -/
structure EventData where
  message : Option String := none
  status : Option String := none
  state : Option String := none
  logs : Option (List String) := none
  action : Option String := none
  cpu_percent : Option Int := none
  memory : Option MemoryStats := none
  network : Option WireNetwork := none
deriving DecidableEq, Repr

/-- A decoded wire envelope (`Console.tsx` lines 43-62): an event name and
its payload. -/
structure ConsoleMessage where
  event : String
  data : EventData
deriving DecidableEq, Repr

/-- The slice of the fetched server details that the console logic reads:
its lifecycle `state` string (`Console.tsx` line 37). -/
structure ServerInfo where
  state : String
deriving DecidableEq, Repr

/-- The session state owned by the console component (`Console.tsx`
lines 76-91): the fetched server (or `none`), the last error, the log
buffer `messages`, the connectivity flag, the in-flight power-action marker
`powerLoading`, and the telemetry snapshot. -/
structure SessionState where
  server : Option ServerInfo
  error : Option String
  messages : List String
  connected : Bool
  powerLoading : Bool
  liveStats : LiveStats
deriving DecidableEq, Repr

/-- The dispatcher: the `switch (message.event)` of the `ws.onmessage`
handler (`Console.tsx` lines 165-209), as a state transformer.

Per the source: `console_output` appends `data.message` when it is a string;
`auth_success` replaces the whole buffer with `data.logs` when that field is
present (the identity `.map(log => log)` included); `stats` replaces the
telemetry snapshot wholesale when `cpu_percent` is defined (missing
sub-objects defaulting to zeroes) and updates the server state when
`data.state` is truthy (in JavaScript the empty string is falsy); `power_status`
appends the status line when `data.status` is defined and always clears
`powerLoading`; `error` surfaces `data.message` or the generic fallback
(the `||` fallback also firing on an empty string), appends an
error-annotated line and clears `powerLoading`; any other event name falls
through the switch with no effect. -/
def dispatch (m : ConsoleMessage) (s : SessionState) : SessionState :=
  if m.event = "console_output" then
    match m.data.message with
    | some msg => { s with messages := s.messages ++ [msg] }
    | none => s
  else if m.event = "auth_success" then
    match m.data.logs with
    | some logs => { s with messages := logs.map (fun log => log) }
    | none => s
  else if m.event = "stats" then
    let s1 :=
      match m.data.cpu_percent with
      | some cpu =>
        { s with liveStats :=
          { cpuPercent := cpu
            memory := m.data.memory.getD ⟨0, 0, 0⟩
            network :=
              match m.data.network with
              | some n => ⟨n.rx_bytes, n.tx_bytes⟩
              | none => ⟨0, 0⟩ } }
      | none => s
    match m.data.state with
    | some st =>
      if st = "" then s1
      else { s1 with server := s1.server.map (fun sv => { sv with state := st }) }
    | none => s1
  else if m.event = "power_status" then
    let s1 :=
      match m.data.status with
      | some st => { s with messages := s.messages ++ [st] }
      | none => s
    { s1 with powerLoading := false }
  else if m.event = "error" then
    let errorMsg :=
      match m.data.message with
      | some msg => if msg = "" then "An unknown error occurred" else msg
      | none => "An unknown error occurred"
    { s with
      error := some errorMsg
      messages := s.messages ++ ["Error: " ++ errorMsg]
      powerLoading := false }
  else s

/-- The whole `ws.onmessage` handler (`Console.tsx` lines 162-210).  Its
first statement is `JSON.parse(event.data)` with no surrounding try/catch,
so the handler either decodes the raw frame and dispatches it, or the parse
exception propagates out of the handler before any state setter has run.
The argument is the outcome of `JSON.parse` on the raw frame; the result
pairs the session state after the handler with a flag recording whether an
exception escaped the handler. -/
def onMessage (parseResult : Except String ConsoleMessage) (s : SessionState) :
    SessionState × Bool :=
  match parseResult with
  | .error _ => (s, true)
  | .ok m => (dispatch m s, false)

/-- An outbound wire frame, as serialized by the two `wsRef.current.send`
calls (`Console.tsx` lines 242-245 and 281-284). -/
inductive Frame
  | sendCommand (data : String)
  | powerAction (action : String)
deriving DecidableEq, Repr

/-- Model of the JavaScript `toLowerCase()` applied to the lifecycle state
strings: character-wise lowering (the state strings are plain ASCII). -/
def jsToLower (s : String) : String :=
  String.mk (s.data.map Char.toLower)

/-- The whitespace class of the JavaScript `trim()`: the ECMAScript
WhiteSpace code points (TAB, VT, FF, SP, NBSP, ZWNBSP and the Unicode
space-separator category: OGHAM SPACE MARK, the EN QUAD..HAIR SPACE range,
NARROW NO-BREAK SPACE, MEDIUM MATHEMATICAL SPACE, IDEOGRAPHIC SPACE) plus
the LineTerminator code points (LF, CR, LINE SEPARATOR, PARAGRAPH
SEPARATOR). -/
def jsWhitespace (c : Char) : Bool :=
  c.toNat = 0x09 || c.toNat = 0x0A || c.toNat = 0x0B || c.toNat = 0x0C ||
  c.toNat = 0x0D || c.toNat = 0x20 || c.toNat = 0xA0 || c.toNat = 0x1680 ||
  (0x2000 ≤ c.toNat && c.toNat ≤ 0x200A) ||
  c.toNat = 0x2028 || c.toNat = 0x2029 || c.toNat = 0x202F ||
  c.toNat = 0x205F || c.toNat = 0x3000 || c.toNat = 0xFEFF

/-- Model of the JavaScript emptiness test `!command.trim()`: the trimmed
string is empty exactly when every character belongs to the whitespace class
that `trim()` removes. -/
def trimIsEmpty (s : String) : Bool :=
  s.data.all jsWhitespace

/-- The `isServerActive` predicate (`Console.tsx` line 302):
`server?.state?.toLowerCase() === 'running'`. -/
def isServerActive (s : SessionState) : Bool :=
  match s.server with
  | some sv => jsToLower sv.state == "running"
  | none => false

/-- The warning line appended when the command is empty after trimming or no
WebSocket object exists (`Console.tsx` line 232). -/
def wsGuardLine : String :=
  "\x1b[33m[System] Cannot send command - WebSocket not connected or empty command\x1b[0m"

/-- The warning line appended when the server is not running
(`Console.tsx` line 237). -/
def notRunningLine : String :=
  "\x1b[33m[System] Cannot send command - server is not running\x1b[0m"

/-- The optimistic echo line appended on a successful send
(`Console.tsx` line 248). -/
def echoLine (command : String) : String :=
  "\x1b[32m$ \x1b[0m" ++ command ++ "\x1b[0m"

/-- The `sendCommand` handler (`Console.tsx` lines 228-254) as a state
transformer that also returns the frames transmitted on the channel.
`wsPresent` is whether `wsRef.current` is non-null; the send on an open
channel does not throw, so the catch branch of the source is unreachable in
the open-channel scenarios modelled here. -/
def sendCommand (s : SessionState) (wsPresent : Bool) (command : String) :
    SessionState × List Frame :=
  if trimIsEmpty command || !wsPresent then
    ({ s with messages := s.messages ++ [wsGuardLine] }, [])
  else if !isServerActive s then
    ({ s with messages := s.messages ++ [notRunningLine] }, [])
  else
    ({ s with messages := s.messages ++ [echoLine command] }, [Frame.sendCommand command])

/-- The three power actions (`Console.tsx` line 276). -/
inductive PowerAction
  | start
  | stop
  | restart
deriving DecidableEq, Repr

/-- The wire name of a power action. -/
def PowerAction.toWire : PowerAction → String
  | .start => "start"
  | .stop => "stop"
  | .restart => "restart"

/-- The `handlePowerAction` handler (`Console.tsx` lines 276-289): a no-op
when the server details are missing, a power action is already in flight, or
no WebSocket object exists; otherwise it sets `powerLoading` and transmits
one `power_action` frame (the send on an open channel does not throw). -/
def handlePowerAction (s : SessionState) (wsPresent : Bool) (a : PowerAction) :
    SessionState × List Frame :=
  if s.server.isNone || s.powerLoading || !wsPresent then (s, [])
  else ({ s with powerLoading := true }, [Frame.powerAction a.toWire])

/-- The `disabled` predicate of the three power buttons (`Console.tsx`
lines 337, 344 and 351): start is disabled while loading or already running;
restart and stop are disabled while loading or not running. -/
def powerButtonDisabled (s : SessionState) : PowerAction → Bool
  | .start => s.powerLoading || isServerActive s
  | .restart => s.powerLoading || !isServerActive s
  | .stop => s.powerLoading || !isServerActive s

/-- The user-invokable power action: `handlePowerAction` is only reachable
through the power buttons' `onClick`, and a disabled button cannot fire its
`onClick`, so the operation the spec calls `requestPowerAction` is the
handler guarded by the button's `disabled` predicate (the spec notes the
lifecycle gating mirrors the button disablement). -/
def requestPowerAction (s : SessionState) (wsPresent : Bool) (a : PowerAction) :
    SessionState × List Frame :=
  if powerButtonDisabled s a then (s, []) else handlePowerAction s wsPresent a

/-- The `readyState` values of a WebSocket object. -/
inductive ReadyState
  | connecting
  | openRS
  | closing
  | closed
deriving DecidableEq, Repr

/-- State of the reconnection behaviour around `initWebSocket`
(`Console.tsx` lines 139-226) and the effect cleanup (lines 126-131):
the `readyState` of `wsRef.current` (`none` before any socket is created —
the source never resets the ref to null afterwards), the `connected` flag,
the number of pending 5-second reconnect timeouts scheduled by `ws.onclose`
(the source keeps no handle to them and never calls `clearTimeout`), a count
of `initWebSocket` invocations, and a ghost flag recording that the session
was explicitly closed by the cleanup. -/
structure ReconnState where
  ws : Option ReadyState
  connected : Bool
  pendingTimers : Nat
  connectCount : Nat
  manuallyClosed : Bool
deriving DecidableEq, Repr

/-- External events driving the reconnection behaviour: the socket's `open`
and `close` callbacks, the effect cleanup's explicit `close()`, and the
firing of one scheduled reconnect timeout. -/
inductive ReconnEvent
  | wsOpen
  | wsCloseEvent
  | manualClose
  | timerFire
deriving DecidableEq, Repr

/-- Effect of one `initWebSocket(serverData)` call (`Console.tsx`
lines 139-154): a new socket is created in the connecting state and stored
in the ref. -/
def initWebSocket (s : ReconnState) : ReconnState :=
  { s with ws := some .connecting, connectCount := s.connectCount + 1 }

/-- One step of the reconnection behaviour.  `wsOpen` is `ws.onopen`
(lines 156-160).  `wsCloseEvent` is `ws.onclose` (lines 212-220): it clears
`connected` and schedules one more 5-second timeout.  `manualClose` is the
effect cleanup (lines 126-131): it calls `close()` on the current socket —
whose `readyState` therefore reaches CLOSED — and cancels nothing, since the
source stores no timeout handle.  `timerFire` is the body of the scheduled
timeout: it re-invokes `initWebSocket` exactly when `wsRef.current` is null
or its `readyState` is CLOSED. -/
def reconnStep (s : ReconnState) : ReconnEvent → ReconnState
  | .wsOpen => { s with ws := some .openRS, connected := true }
  | .wsCloseEvent => { s with connected := false, pendingTimers := s.pendingTimers + 1 }
  | .manualClose =>
    match s.ws with
    | some _ => { s with ws := some .closed, manuallyClosed := true }
    | none => { s with manuallyClosed := true }
  | .timerFire =>
    if s.pendingTimers = 0 then s
    else
      let s1 := { s with pendingTimers := s.pendingTimers - 1 }
      if s1.ws = none ∨ s1.ws = some .closed then initWebSocket s1 else s1

/-- Running a sequence of reconnection events. -/
def reconnRun (s : ReconnState) : List ReconnEvent → ReconnState
  | [] => s
  | e :: es => reconnRun (reconnStep s e) es

/-- A session whose socket is open, with no pending timer: the state after a
successful initial connect. -/
def openSession : ReconnState :=
  { ws := some .openRS, connected := true, pendingTimers := 0,
    connectCount := 1, manuallyClosed := false }

/-- A loaded session whose server is stopped: concrete state for the gating
scenarios. -/
def stoppedState : SessionState :=
  { server := some ⟨"stopped"⟩, error := none, messages := [],
    connected := true, powerLoading := false,
    liveStats := ⟨0, ⟨0, 0, 0⟩, ⟨0, 0⟩⟩ }

/-- A loaded session whose server is running. -/
def runningState : SessionState :=
  { server := some ⟨"running"⟩, error := none, messages := [],
    connected := true, powerLoading := false,
    liveStats := ⟨0, ⟨0, 0, 0⟩, ⟨0, 0⟩⟩ }

/-- Helper: the active-state test of a session whose server details are
loaded reduces to the lowercased state string. -/
theorem isServerActive_of_server (s : SessionState) (sv : ServerInfo)
    (h : s.server = some sv) : isServerActive s = (jsToLower sv.state == "running") := by
  simp [isServerActive, h]

/-- C1: with the server stopped, the stop (and restart) power action is
rejected with no frame transmitted; start is rejected when already running;
and in the stopped state with no action in flight and a channel object
present, start transmits exactly one power_action frame and sets the
in-flight marker. -/
theorem power_action_gating :
    (∀ (s : SessionState) (ws : Bool), isServerActive s = false →
      requestPowerAction s ws .stop = (s, []) ∧
        requestPowerAction s ws .restart = (s, [])) ∧
    (∀ (s : SessionState) (ws : Bool), isServerActive s = true →
      requestPowerAction s ws .start = (s, [])) ∧
    (∀ s : SessionState, isServerActive s = false → s.powerLoading = false →
      s.server.isNone = false →
      requestPowerAction s true .start
        = ({ s with powerLoading := true }, [Frame.powerAction (("start"))])) := by
  refine ⟨?_, ?_, ?_⟩
  · intro s ws h
    constructor <;> simp [requestPowerAction, powerButtonDisabled, h]
  · intro s ws h
    simp [requestPowerAction, powerButtonDisabled, h]
  · intro s h1 h2 h3
    simp [requestPowerAction, powerButtonDisabled, handlePowerAction,
      PowerAction.toWire, h1, h2, h3]

/-- C1 witness: the concrete stopped-session power-gating scenario. -/
theorem power_action_gating_check :
    requestPowerAction stoppedState true .stop = (stoppedState, []) ∧
    requestPowerAction stoppedState true .start
      = ({ stoppedState with powerLoading := true },
          [Frame.powerAction (("start"))]) :=
  ⟨(power_action_gating.1 stoppedState true (by decide)).1,
    power_action_gating.2.2 stoppedState (by decide) (by decide) (by decide)⟩

/-- C2 counterexample: on a frame whose raw payload is not parseable JSON,
the parse exception escapes the onmessage handler (there is no try/catch
around JSON.parse), contradicting the claim that no exception escapes. -/
theorem malformed_frame_escape_cex :
    (onMessage (.error ("Unexpected token")) stoppedState).2 = true := rfl

/-- C2 amended: a frame whose raw payload is not parseable leaves the whole
session state unchanged (the handler throws before any setter runs), but the
parse exception escapes the handler uncaught. -/
theorem malformed_frame_drops_state (e : String) (s : SessionState) :
    onMessage (.error e) s = (s, true) := rfl

/-- C3: the code reconnects after an explicit close.  Starting from an open
session, the effect cleanup's manual close() puts the socket in the CLOSED
state; the close event it triggers schedules a 5-second reconnect timeout
(the source stores no handle to it and never cancels it); when that timeout
fires it finds readyState CLOSED and re-invokes initWebSocket, so the
connect count rises from 1 to 2 even though the session was manually
closed. -/
theorem reconnect_fires_after_manual_close :
    (reconnRun openSession [.manualClose, .wsCloseEvent, .timerFire]).manuallyClosed
        = true ∧
    (reconnRun openSession [.manualClose, .wsCloseEvent, .timerFire]).connectCount
        = 2 := by
  decide

/-- C5 counterexample: with the server stopped, a non-empty but
whitespace-only command is rejected by the first guard (empty after trim /
not connected) rather than with the server-not-running line the claim
requires. -/
theorem sendCommand_whitespace_cex :
    (sendCommand stoppedState true ((" "))).1.messages
        = stoppedState.messages ++ [wsGuardLine] ∧
    (sendCommand stoppedState true ((" "))).1.messages
        ≠ stoppedState.messages ++ [notRunningLine] := by
  constructor
  · decide
  · decide

/-- C5 amended: for any command that is non-empty after trimming and a
present channel object, sendCommand with the server stopped or installing
appends the server-not-running explanatory line and transmits no frame,
while with the server running it transmits exactly one send_command frame
and appends the locally-echoed command line (the raw echo line wraps the
prompt in color escape codes). -/
theorem sendCommand_gating :
    (∀ (s : SessionState) (sv : ServerInfo) (cmd : String), s.server = some sv →
      (sv.state = ("stopped") ∨ sv.state = ("installing")) →
      trimIsEmpty cmd = false →
      sendCommand s true cmd
        = ({ s with messages := s.messages ++ [notRunningLine] }, [])) ∧
    (∀ (s : SessionState) (sv : ServerInfo) (cmd : String), s.server = some sv →
      sv.state = ("running") →
      trimIsEmpty cmd = false →
      sendCommand s true cmd
        = ({ s with messages := s.messages ++ [echoLine cmd] },
            [Frame.sendCommand cmd])) := by
  constructor
  · intro s sv cmd h1 h2 h3
    have hact : isServerActive s = false := by
      rw [isServerActive_of_server s sv h1]
      rcases h2 with h2 | h2 <;> rw [h2] <;> decide
    simp [sendCommand, h3, hact]
  · intro s sv cmd h1 h2 h3
    have hact : isServerActive s = true := by
      rw [isServerActive_of_server s sv h1, h2]
      decide
    simp [sendCommand, h3, hact]

/-- C5 witness: the amended gating at a concrete stopped and a concrete
running session. -/
theorem sendCommand_gating_check :
    sendCommand stoppedState true (("help"))
      = ({ stoppedState with messages := stoppedState.messages ++ [notRunningLine] },
          []) ∧
    sendCommand runningState true (("help"))
      = ({ runningState with
            messages := runningState.messages ++ [echoLine (("help"))] },
          [Frame.sendCommand (("help"))]) :=
  ⟨sendCommand_gating.1 stoppedState ⟨("stopped")⟩ (("help")) rfl (Or.inl rfl)
      (by decide),
    sendCommand_gating.2 runningState ⟨("running")⟩ (("help")) rfl rfl (by decide)⟩

/-- C8: a code list beginning with the reset code applied to any carried
style state yields the same style as the remaining codes applied to the
default empty style. -/
theorem reset_code_restarts_default (st : SpanStyle) (codes : List (Option Int)) :
    applyCodes ansiColorsSrc ansiColorsSrc st (some 0 :: codes)
      = applyCodes ansiColorsSrc ansiColorsSrc SpanStyle.empty codes := rfl

/-- C6: for every dispatched event, either the event is an auth_success
carrying a logs payload and the log buffer is replaced wholesale by that
payload, or the new log buffer extends the old one at the end (so no other
event kind ever shrinks or reorders the buffer). -/
theorem logBuffer_append_only (m : ConsoleMessage) (s : SessionState) :
    (m.event = ("auth_success") ∧
      ∃ logs, m.data.logs = some logs ∧ (dispatch m s).messages = logs) ∨
    (∃ t, (dispatch m s).messages = s.messages ++ t) := by
  unfold dispatch
  split_ifs with h1 h2 h3 h4 h5
  · rcases hm : m.data.message with _ | msg
    · exact Or.inr ⟨[], by simp [hm]⟩
    · exact Or.inr ⟨[msg], by simp [hm]⟩
  · rcases hl : m.data.logs with _ | logs
    · exact Or.inr ⟨[], by simp [hl]⟩
    · exact Or.inl ⟨h2, logs, rfl, by simp [hl]⟩
  · refine Or.inr ⟨[], ?_⟩
    rcases hc : m.data.cpu_percent with _ | cpu <;>
      rcases hst : m.data.state with _ | st <;>
        simp [hc, hst] <;> split <;> simp
  · rcases hst : m.data.status with _ | st
    · exact Or.inr ⟨[], by simp [hst]⟩
    · exact Or.inr ⟨[st], by simp [hst]⟩
  · rcases hm : m.data.message with _ | msg
    · exact Or.inr ⟨[("Error: An unknown error occurred")], by simp [hm]⟩
    · by_cases he : msg = ""
      · exact Or.inr ⟨[("Error: An unknown error occurred")], by simp [hm, he]⟩
      · exact Or.inr ⟨["Error: " ++ msg], by simp [hm, he]⟩
  · exact Or.inr ⟨[], by simp⟩

/-- C7: parsing the concrete line ESC[32m OK ESC[0m " done" yields exactly
the two segments of the specification, the first colored with the green
palette entry and the second with the default style; in general a code in
30..37 sets the foreground to base palette slot code-30 and a code in 90..97
sets it to bright palette slot code-82. -/
theorem fg_color_codes :
    parseAnsi (("\u001b[32mOK\u001b[0m done").data)
      = [⟨("OK").data, { SpanStyle.empty with color := some (("#b5cea8")) }⟩,
          ⟨((" done")).data, SpanStyle.empty⟩] ∧
    (∀ (st : SpanStyle) (c : Int), 30 ≤ c → c ≤ 37 →
      applyCode ansiColorsSrc ansiColorsSrc st (some c)
        = { st with color := some (ansiColorsSrc (c - 30).toNat) }) ∧
    (∀ (st : SpanStyle) (c : Int), 90 ≤ c → c ≤ 97 →
      applyCode ansiColorsSrc ansiColorsSrc st (some c)
        = { st with color := some (ansiColorsSrc (c - 82).toNat) }) := by
  refine ⟨by decide, ?_, ?_⟩
  · intro st c h1 h2
    interval_cases c <;> rfl
  · intro st c h1 h2
    interval_cases c <;> rfl

/-- C7 witness: the general foreground rules at the concrete codes 32 and
92. -/
theorem fg_color_codes_check :
    applyCode ansiColorsSrc ansiColorsSrc SpanStyle.empty (some 32)
        = { SpanStyle.empty with
              color := some (ansiColorsSrc ((32 : Int) - 30).toNat) } ∧
    applyCode ansiColorsSrc ansiColorsSrc SpanStyle.empty (some 92)
        = { SpanStyle.empty with
              color := some (ansiColorsSrc ((92 : Int) - 82).toNat) } :=
  ⟨fg_color_codes.2.1 SpanStyle.empty 32 (by decide) (by decide),
    fg_color_codes.2.2 SpanStyle.empty 92 (by decide) (by decide)⟩

/-- Helper: text concatenation distributes over segment-list append. -/
theorem textConcat_append (a b : List Span) :
    textConcat (a ++ b) = textConcat a ++ textConcat b := by
  simp [textConcat]

/-- Helper: scanning a terminated code body collects it entirely, applies the
accumulated codes to the carried style, and resumes in text mode. -/
theorem scan_code_skip (fg bg : Nat → String) (body : List Char) :
    body.contains 'm' = false →
    ∀ (acc rest : List Char) (st : SpanStyle),
      scan fg bg (body ++ ('m' :: rest)) (.code acc) st
        = scan fg bg rest (.text [])
            (applyCodes fg bg st (parseCodes (acc ++ body))) := by
  induction body with
  | nil =>
    intro _ acc rest st
    simp [scan]
  | cons c body ih =>
    intro h acc rest st
    rw [List.contains_cons] at h
    simp only [Bool.or_eq_false_iff, beq_eq_false_iff_ne] at h
    have hc : ¬(c = 'm') := fun e => h.1 e.symm
    rw [List.cons_append]
    rw [show scan fg bg (c :: (body ++ ('m' :: rest))) (.code acc) st
        = scan fg bg (body ++ ('m' :: rest)) (.code (acc ++ [c])) st from by
      simp [scan, hc]]
    rw [ih h.2 (acc ++ [c]) rest st]
    simp

/-- Helper: scanning the rendering of a well-formed chunk list in text mode
accumulates exactly its plain characters, whatever text is already pending
and whatever style is carried. -/
theorem scan_render_text (fg bg : Nat → String) (ks : List Chunk) :
    goodChunks ks = true →
    ∀ (cur : List Char) (st : SpanStyle),
      textConcat (scan fg bg (render ks) (.text cur) st) = cur ++ plain ks := by
  induction ks with
  | nil =>
    intro _ cur st
    by_cases hcur : cur = [] <;> simp [render, scan, plain, textConcat, hcur]
  | cons k ks ih =>
    intro h cur st
    cases k with
    | ch c =>
      rw [show goodChunks (Chunk.ch c :: ks) = (!(c == escChar) && goodChunks ks)
          from rfl] at h
      simp only [Bool.and_eq_true, Bool.not_eq_true', beq_eq_false_iff_ne] at h
      cases hr : render ks with
      | nil =>
        have hstep := ih h.2 (cur ++ [c]) st
        rw [hr] at hstep
        rw [show render (Chunk.ch c :: ks) = [c] ++ render ks from rfl, hr]
        rw [show ([c] ++ [] : List Char) = [c] from by simp]
        rw [show scan fg bg [c] (.text cur) st
            = scan fg bg [] (.text (cur ++ [c])) st from by simp [scan]]
        rw [hstep]
        simp [plain]
      | cons c2 t =>
        have hstep := ih h.2 (cur ++ [c]) st
        rw [show render (Chunk.ch c :: ks) = [c] ++ render ks from rfl, hr]
        rw [show (([c] ++ (c2 :: t)) : List Char) = c :: c2 :: t from by simp]
        rw [show scan fg bg (c :: c2 :: t) (.text cur) st
            = scan fg bg (c2 :: t) (.text (cur ++ [c])) st from by
          have hne : ¬(c = escChar ∧ c2 = '[') := fun hand => h.1 hand.1
          simp [scan, hne]]
        rw [← hr, hstep]
        simp [plain]
    | escSeq body =>
      rw [show goodChunks (Chunk.escSeq body :: ks)
          = (!(body.contains 'm') && goodChunks ks) from rfl] at h
      simp only [Bool.and_eq_true, Bool.not_eq_true'] at h
      rw [show render (Chunk.escSeq body :: ks)
          = escChar :: '[' :: (body ++ ('m' :: render ks)) from by
        simp [render, renderChunk]]
      rw [show scan fg bg (escChar :: '[' :: (body ++ ('m' :: render ks)))
            (.text cur) st
          = (if cur = [] then [] else [⟨cur, st⟩])
              ++ scan fg bg (body ++ ('m' :: render ks)) (.code []) st from by
        simp [scan]]
      rw [scan_code_skip fg bg body h.1 [] (render ks) st]
      rw [textConcat_append]
      rw [ih h.2 []]
      by_cases hcur : cur = [] <;> simp [hcur, textConcat, plain]

/-- C4: concatenating the text fields of the segments produced by the parser
on any input built of ordinary characters and well-formed escape sequences
reconstructs the input with all escape sequences removed. -/
theorem segment_roundtrip (ks : List Chunk) (h : goodChunks ks = true) :
    textConcat (parseAnsi (render ks)) = plain ks := by
  simpa [parseAnsi] using
    scan_render_text ansiColorsSrc ansiColorsSrc ks h [] SpanStyle.empty

/-- C4 witness: the round-trip identity at the concrete well-formed line
ESC[32m OK ESC[0m " done". -/
theorem segment_roundtrip_check :
    goodChunks
        [Chunk.escSeq ['3', '2'], Chunk.ch 'O', Chunk.ch 'K',
          Chunk.escSeq ['0'], Chunk.ch ' ', Chunk.ch 'd', Chunk.ch 'o',
          Chunk.ch 'n', Chunk.ch 'e'] = true ∧
    textConcat (parseAnsi (render
        [Chunk.escSeq ['3', '2'], Chunk.ch 'O', Chunk.ch 'K',
          Chunk.escSeq ['0'], Chunk.ch ' ', Chunk.ch 'd', Chunk.ch 'o',
          Chunk.ch 'n', Chunk.ch 'e']))
      = plain
        [Chunk.escSeq ['3', '2'], Chunk.ch 'O', Chunk.ch 'K',
          Chunk.escSeq ['0'], Chunk.ch ' ', Chunk.ch 'd', Chunk.ch 'o',
          Chunk.ch 'n', Chunk.ch 'e'] :=
  ⟨by decide, segment_roundtrip _ (by decide)⟩

/-- Helper: scanning a code body that never reaches the terminator consumes
everything and emits no segment. -/
theorem scan_unterminated_code (fg bg : Nat → String) (body : List Char) :
    body.contains 'm' = false →
    ∀ (acc : List Char) (st : SpanStyle),
      scan fg bg body (.code acc) st = [] := by
  induction body with
  | nil =>
    intro _ acc st
    simp [scan]
  | cons c body ih =>
    intro h acc st
    rw [List.contains_cons] at h
    simp only [Bool.or_eq_false_iff, beq_eq_false_iff_ne] at h
    have hc : ¬(c = 'm') := fun e => h.1 e.symm
    rw [show scan fg bg (c :: body) (.code acc) st
        = scan fg bg body (.code (acc ++ [c])) st from by simp [scan, hc]]
    exact ih h.2 (acc ++ [c]) st

/-- Helper: appending an unterminated escape sequence to the rendering of a
well-formed chunk list does not change the parse: the trailing introducer
flushes the pending text exactly as the end of input would, and the
remaining characters are consumed as code body without being emitted. -/
theorem scan_render_unterminated (fg bg : Nat → String) (ks : List Chunk) :
    goodChunks ks = true →
    ∀ (body : List Char), body.contains 'm' = false →
    ∀ (cur : List Char) (st : SpanStyle),
      scan fg bg (render ks ++ escChar :: '[' :: body) (.text cur) st
        = scan fg bg (render ks) (.text cur) st := by
  induction ks with
  | nil =>
    intro _ body hb cur st
    rw [show render ([] : List Chunk) = [] from rfl]
    rw [List.nil_append]
    rw [show scan fg bg (escChar :: '[' :: body) (.text cur) st
        = (if cur = [] then [] else [⟨cur, st⟩])
            ++ scan fg bg body (.code []) st from by simp [scan]]
    rw [scan_unterminated_code fg bg body hb [] st]
    by_cases hcur : cur = [] <;> simp [scan, hcur]
  | cons k ks ih =>
    intro h body hb cur st
    cases k with
    | ch c =>
      rw [show goodChunks (Chunk.ch c :: ks) = (!(c == escChar) && goodChunks ks)
          from rfl] at h
      simp only [Bool.and_eq_true, Bool.not_eq_true', beq_eq_false_iff_ne] at h
      cases hr : render ks with
      | nil =>
        have hstep := ih h.2 body hb (cur ++ [c]) st
        rw [hr] at hstep
        rw [show render (Chunk.ch c :: ks) = [c] ++ render ks from rfl, hr]
        rw [show (([c] ++ [] : List Char) ++ escChar :: '[' :: body)
            = c :: escChar :: '[' :: body from by simp]
        rw [show ([c] ++ [] : List Char) = [c] from by simp]
        have hne : ¬(c = escChar ∧ escChar = '[') := fun hand => h.1 hand.1
        rw [show scan fg bg (c :: escChar :: '[' :: body) (.text cur) st
            = scan fg bg (escChar :: '[' :: body) (.text (cur ++ [c])) st from by
          simp [scan, hne]]
        rw [show (escChar :: '[' :: body : List Char)
            = [] ++ escChar :: '[' :: body from rfl, hstep]
        simp [scan]
      | cons c2 t =>
        have hstep := ih h.2 body hb (cur ++ [c]) st
        rw [show render (Chunk.ch c :: ks) = [c] ++ render ks from rfl, hr]
        rw [show (([c] ++ (c2 :: t) : List Char) ++ escChar :: '[' :: body)
            = c :: c2 :: (t ++ escChar :: '[' :: body) from by simp]
        rw [show (([c] ++ (c2 :: t)) : List Char) = c :: c2 :: t from by simp]
        have hne : ¬(c = escChar ∧ c2 = '[') := fun hand => h.1 hand.1
        rw [show scan fg bg (c :: c2 :: (t ++ escChar :: '[' :: body))
              (.text cur) st
            = scan fg bg ((c2 :: t) ++ escChar :: '[' :: body)
                (.text (cur ++ [c])) st from by simp [scan, hne]]
        rw [show scan fg bg (c :: c2 :: t) (.text cur) st
            = scan fg bg (c2 :: t) (.text (cur ++ [c])) st from by
          simp [scan, hne]]
        rw [← hr]
        exact hstep
    | escSeq body2 =>
      rw [show goodChunks (Chunk.escSeq body2 :: ks)
          = (!(body2.contains 'm') && goodChunks ks) from rfl] at h
      simp only [Bool.and_eq_true, Bool.not_eq_true'] at h
      rw [show render (Chunk.escSeq body2 :: ks)
          = escChar :: '[' :: (body2 ++ ('m' :: render ks)) from by
        simp [render, renderChunk]]
      rw [show ((escChar :: '[' :: (body2 ++ ('m' :: render ks)))
            ++ escChar :: '[' :: body)
          = escChar :: '[' :: (body2 ++ ('m' :: (render ks ++ escChar :: '[' :: body)))
          from by simp]
      rw [show scan fg bg
            (escChar :: '[' :: (body2 ++ ('m' :: (render ks ++ escChar :: '[' :: body))))
            (.text cur) st
          = (if cur = [] then [] else [⟨cur, st⟩])
              ++ scan fg bg (body2 ++ ('m' :: (render ks ++ escChar :: '[' :: body)))
                  (.code []) st from by simp [scan]]
      rw [show scan fg bg (escChar :: '[' :: (body2 ++ ('m' :: render ks)))
            (.text cur) st
          = (if cur = [] then [] else [⟨cur, st⟩])
              ++ scan fg bg (body2 ++ ('m' :: render ks)) (.code []) st from by
        simp [scan]]
      rw [scan_code_skip fg bg body2 h.1 [] _ st, scan_code_skip fg bg body2 h.1 [] _ st]
      rw [ih h.2 body hb []]

/-- C9: the parser is total by construction, and on an input that ends in an
escape introducer whose code body never reaches the terminator it returns
exactly the segments of the well-formed prefix, consuming the dangling
introducer and body without emitting them. -/
theorem unterminated_escape_safe (ks : List Chunk) (body : List Char)
    (h1 : goodChunks ks = true) (h2 : body.contains 'm' = false) :
    parseAnsi (render ks ++ escChar :: '[' :: body) = parseAnsi (render ks) := by
  unfold parseAnsi
  exact scan_render_unterminated ansiColorsSrc ansiColorsSrc ks h1 body h2 []
    SpanStyle.empty

/-- C9 witness: a concrete line whose trailing escape sequence is never
terminated parses to exactly the segments of its well-formed prefix. -/
theorem unterminated_escape_safe_check :
    goodChunks [Chunk.ch 'a', Chunk.ch 'b'] = true ∧
    (['1', ';', '3'] : List Char).contains 'm' = false ∧
    parseAnsi (render [Chunk.ch 'a', Chunk.ch 'b']
        ++ escChar :: '[' :: ['1', ';', '3'])
      = parseAnsi (render [Chunk.ch 'a', Chunk.ch 'b']) :=
  ⟨by decide, by decide,
    unterminated_escape_safe [Chunk.ch 'a', Chunk.ch 'b'] ['1', ';', '3']
      (by decide) (by decide)⟩

/-- Helper: one code application preserves flag agreement, whatever palettes
the two parsers use. -/
theorem applyCode_sim (fg1 bg1 fg2 bg2 : Nat → String) (st1 st2 : SpanStyle)
    (c : Option Int) (h : StyleSim st1 st2) :
    StyleSim (applyCode fg1 bg1 st1 c) (applyCode fg2 bg2 st2 c) := by
  obtain ⟨h1, h2, h3⟩ := h
  cases c with
  | none => exact ⟨h1, h2, h3⟩
  | some c =>
    unfold applyCode
    dsimp only
    split_ifs <;> simp_all [StyleSim, SpanStyle.empty]

/-- Helper: a whole code list preserves flag agreement. -/
theorem applyCodes_sim (fg1 bg1 fg2 bg2 : Nat → String) (cs : List (Option Int)) :
    ∀ (st1 st2 : SpanStyle), StyleSim st1 st2 →
      StyleSim (applyCodes fg1 bg1 st1 cs) (applyCodes fg2 bg2 st2 cs) := by
  induction cs with
  | nil => intro st1 st2 h; exact h
  | cons c cs ih =>
    intro st1 st2 h
    exact ih _ _ (applyCode_sim fg1 bg1 fg2 bg2 st1 st2 c h)

/-- Helper: the scanner run with two different palettes from flag-agreeing
styles produces segment lists related pointwise by text equality and flag
agreement; the control flow never consults a color value. -/
theorem scan_sim (fg1 bg1 fg2 bg2 : Nat → String) (n : Nat) :
    ∀ (input : List Char) (mode : ScanMode) (st1 st2 : SpanStyle),
      input.length ≤ n → StyleSim st1 st2 →
      List.Forall₂ SpanSim (scan fg1 bg1 input mode st1)
        (scan fg2 bg2 input mode st2) := by
  induction n with
  | zero =>
    intro input mode st1 st2 hlen hsim
    have hnil : input = [] := List.length_eq_zero.mp (Nat.le_zero.mp hlen)
    subst hnil
    cases mode with
    | text cur =>
      by_cases hcur : cur = []
      · simp [scan, hcur]
      · simp only [scan, hcur, if_neg]
        exact List.Forall₂.cons ⟨rfl, hsim⟩ List.Forall₂.nil
    | code body => simp [scan]
  | succ n ih =>
    intro input mode st1 st2 hlen hsim
    cases input with
    | nil =>
      cases mode with
      | text cur =>
        by_cases hcur : cur = []
        · simp [scan, hcur]
        · simp only [scan, hcur, if_neg]
          exact List.Forall₂.cons ⟨rfl, hsim⟩ List.Forall₂.nil
      | code body => simp [scan]
    | cons c cs =>
      have hlen2 : cs.length ≤ n := by
        simp only [List.length_cons] at hlen
        omega
      cases mode with
      | code body =>
        by_cases hc : c = 'm'
        · rw [show scan fg1 bg1 (c :: cs) (.code body) st1
              = scan fg1 bg1 cs (.text [])
                  (applyCodes fg1 bg1 st1 (parseCodes body)) from by
            simp [scan, hc]]
          rw [show scan fg2 bg2 (c :: cs) (.code body) st2
              = scan fg2 bg2 cs (.text [])
                  (applyCodes fg2 bg2 st2 (parseCodes body)) from by
            simp [scan, hc]]
          exact ih cs _ _ _ hlen2
            (applyCodes_sim fg1 bg1 fg2 bg2 (parseCodes body) st1 st2 hsim)
        · rw [show scan fg1 bg1 (c :: cs) (.code body) st1
              = scan fg1 bg1 cs (.code (body ++ [c])) st1 from by simp [scan, hc]]
          rw [show scan fg2 bg2 (c :: cs) (.code body) st2
              = scan fg2 bg2 cs (.code (body ++ [c])) st2 from by simp [scan, hc]]
          exact ih cs _ _ _ hlen2 hsim
      | text cur =>
        cases cs with
        | nil =>
          rw [show scan fg1 bg1 [c] (.text cur) st1
              = scan fg1 bg1 [] (.text (cur ++ [c])) st1 from by simp [scan]]
          rw [show scan fg2 bg2 [c] (.text cur) st2
              = scan fg2 bg2 [] (.text (cur ++ [c])) st2 from by simp [scan]]
          exact ih [] _ _ _ (by simp) hsim
        | cons c2 t =>
          have hlen3 : t.length ≤ n := by
            simp only [List.length_cons] at hlen
            omega
          by_cases hesc : c = escChar ∧ c2 = '['
          · rw [show scan fg1 bg1 (c :: c2 :: t) (.text cur) st1
                = (if cur = [] then [] else [⟨cur, st1⟩])
                    ++ scan fg1 bg1 t (.code []) st1 from by simp [scan, hesc]]
            rw [show scan fg2 bg2 (c :: c2 :: t) (.text cur) st2
                = (if cur = [] then [] else [⟨cur, st2⟩])
                    ++ scan fg2 bg2 t (.code []) st2 from by simp [scan, hesc]]
            have htail := ih t (.code []) st1 st2 hlen3 hsim
            by_cases hcur : cur = []
            · simpa [hcur] using htail
            · simp only [hcur, if_neg, List.cons_append, List.nil_append]
              exact List.Forall₂.cons ⟨rfl, hsim⟩ htail
          · rw [show scan fg1 bg1 (c :: c2 :: t) (.text cur) st1
                = scan fg1 bg1 (c2 :: t) (.text (cur ++ [c])) st1 from by
              simp [scan, hesc]]
            rw [show scan fg2 bg2 (c :: c2 :: t) (.text cur) st2
                = scan fg2 bg2 (c2 :: t) (.text (cur ++ [c])) st2 from by
              simp [scan, hesc]]
            exact ih (c2 :: t) _ _ _ (by simpa using hlen2) hsim

/-- C10: on every input, the original parser and the themed variant return
segment lists of equal length, pointwise identical in text and in the
bold, italic and underline flags; they differ only in the concrete color
values the palettes supply. -/
theorem themed_variant_agrees (input : List Char) :
    (parseAnsi input).length = (parseAnsiThemed input).length ∧
    List.Forall₂ SpanSim (parseAnsi input) (parseAnsiThemed input) := by
  have h := scan_sim ansiColorsSrc ansiColorsSrc ansiVarFg ansiVarBg
    input.length input (.text []) SpanStyle.empty SpanStyle.empty le_rfl
    ⟨rfl, rfl, rfl⟩
  exact ⟨h.length_eq, h⟩

end ArgonConsole
